import Mathlib

/-
Verification of the temp-dll repository (Go): a shallow embedding of
`safeWriteFile` (safeWriteFile.go), the `LazyDLL.Load` / `Handle` /
`LazyProc.Find` state machines, and the content-addressed target-path
computation (sha256 + unpadded base32), together with theorems settling
the specification claims.

Modelling conventions:
 * bytes are `Nat` (each < 256 in intended use); byte sequences are `List Nat`;
 * OS errors are abstract tokens `Err := Nat`;
 * the filesystem at the single path `fileName` is an oracle `FsEnv`:
   for each loop iteration it gives the outcome of the read-open (together
   with the bytes the verification copy observed), the outcome of the
   write-open, and the (ignored) errors of the two `io.Copy` calls;
 * the mutex-guarded `Load`/`Find` are modelled as sequential state-transition
   steps (the lock collapses concurrent callers into a sequence);
 * every syscall-level action is recorded in an event trace so that claims
   about "zero writes", "exactly k attempts", "sleeps between attempts" and
   "the returned descriptor is never closed" are statable.
-/

/-- Abstract OS error token (`error` values in Go are only compared to nil
and wrapped; their identity is all that matters). -/
abbrev Err := Nat

/-- What a successful read-open of the target file yields in one iteration:
`fileBytes` is the content of the file, `observed` is what
`io.Copy(fileOnDisk, file.handle)` actually transferred into the verification
buffer (a prefix of `fileBytes`; equal to it when the copy hits EOF without
error -- the copy's own error is ignored by the code). -/
structure ReadObs where
  fileBytes : List Nat
  observed  : List Nat
deriving Repr, DecidableEq

/-- Outcome of `os.OpenFile(fileName, os.O_RDONLY, 0600)` in one iteration. -/
inductive ReadOutcome where
  | openFail (e : Err)
  | opened (obs : ReadObs)
deriving Repr, DecidableEq

/-- Environment (filesystem/OS behaviour) for one iteration of the
`safeWriteFile` retry loop.  `readCopyErr` and `writeCopyErr` are the error
results of the two `io.Copy` calls; the Go code discards both, which the
embedding reflects by never reading these fields. -/
structure IterEnv where
  readOutcome  : ReadOutcome
  readCopyErr  : Option Err
  writeOpen    : Option Err
  writeCopyErr : Option Err
deriving Repr, DecidableEq

/-- Filesystem behaviour per loop iteration index. -/
abbrev FsEnv := Nat → IterEnv

/-- Trace events: every descriptor-level action `safeWriteFile` performs.
Descriptors are identified by the iteration index that opened them
(read and write descriptors separately). -/
inductive Event where
  | readOpenOk (i : Nat)
  | readOpenFail (i : Nat) (e : Err)
  | readCompare (i : Nat) (observed : List Nat)
  | closeRead (i : Nat)
  | writeOpenOk (i : Nat)
  | writeOpenFail (i : Nat) (e : Err)
  | writeContents (i : Nat) (toOpenHandle : Bool)
  | closeWrite (i : Nat)
  | sleep (d : Nat)
deriving Repr, DecidableEq

/-- A successful result of `safeWriteFile`: the read descriptor opened at
iteration `fd` is returned to the caller.  `fileBytes` are the bytes of the
file it is open on, `observed` the bytes the verification copy consumed from
it (so its offset is `observed.length`). -/
structure SWFSuccess where
  fd : Nat
  fileBytes : List Nat
  observed : List Nat
deriving Repr, DecidableEq

/-- The three error returns of `safeWriteFile`, each carrying exactly the
underlying errors the corresponding `fmt.Errorf` wraps. -/
inductive SWFError where
  | contentMismatch (lastWriterErr : Option Err)
  | writeOpenFailed (readerErr : Option Err) (writerErr : Err)
  | exhausted (readerErr : Option Err) (lastWriterErr : Option Err)
deriving Repr, DecidableEq

/-- Result of `safeWriteFile`. -/
inductive SWFResult where
  | ok (s : SWFSuccess)
  | error (e : SWFError)
deriving Repr, DecidableEq

/-- `file.safeClose(); wFile.safeClose()` at the top of each loop iteration. -/
def topCloses (fileH wFileH : Option Nat) : List Event :=
  (match fileH with | some i => [Event.closeRead i] | none => []) ++
  (match wFileH with | some i => [Event.closeWrite i] | none => [])

/-- The deferred `wFile.safeClose()` then `file.safeClose()` that run at every
return (defers run in reverse declaration order). -/
def deferCloses (fileH wFileH : Option Nat) : List Event :=
  (match wFileH with | some i => [Event.closeWrite i] | none => []) ++
  (match fileH with | some i => [Event.closeRead i] | none => [])

/-- Outcome of the write phase of one iteration: either a return from the
function, or a continuation into the next iteration with the new
`wErr` value and the new write-holder state. -/
inductive WriteStep where
  | ret (res : SWFResult) (evs : List Event)
  | cont (wErr : Option Err) (wFileH : Option Nat) (evs : List Event)
deriving Repr, DecidableEq

/-- The write phase of iteration `i` of `safeWriteFile`'s loop (the code from
`wFile.handle, wErr = os.OpenFile(...)` down to the conditional
`time.Sleep(retryDelay)`).  `wo` is the outcome of the write-open,
`err` the current iteration's read error, `fileH` the still-open read
descriptor (open on the content-mismatch path, closed/absent on the
read-open-failure path).  On a failed write-open the code proceeds to
`io.Copy(wFile.handle, toWrite)` with a nil handle -- recorded as
`writeContents i false` -- unless this is the last iteration, in which case
it returns an error wrapping both `err` and the write error. -/
def swfWrite (rc retryDelay i : Nat) (wo : Option Err) (err : Option Err)
    (fileH : Option Nat) : WriteStep :=
  match wo with
  | some ew =>
      if i = rc then
        WriteStep.ret (SWFResult.error (SWFError.writeOpenFailed err ew))
          ([Event.writeOpenFail i ew] ++ deferCloses fileH none)
      else
        WriteStep.cont (some ew) none
          ([Event.writeOpenFail i ew, Event.writeContents i false] ++
           (if i + 1 < rc then [Event.sleep retryDelay] else []))
  | none =>
      WriteStep.cont none (some i)
        ([Event.writeOpenOk i, Event.writeContents i true] ++
         (if i + 1 < rc then [Event.sleep retryDelay] else []))

/-- Outcome of one full loop iteration: either a return from the function,
or a continuation into the next iteration carrying the new values of the
function-scoped `err`/`wErr` variables and the two `fileHolder`s. -/
inductive IterOut where
  | ret (res : SWFResult) (evs : List Event)
  | cont (err wErr : Option Err) (fileH wFileH : Option Nat) (evs : List Event)
deriving Repr, DecidableEq

/-- One iteration `i` of the retry loop (the whole loop body): close the
previous iteration's holders, attempt the read-open, on success copy and
compare (returning the descriptor on a match, or the content-mismatch error
when `i = rc`), otherwise run the write phase.  The events of the iteration
are accumulated in source order. -/
def swfIter (env : FsEnv) (contents : List Nat) (rc retryDelay i : Nat)
    (wErr : Option Err) (fileH wFileH : Option Nat) : IterOut :=
  let top := topCloses fileH wFileH
  match (env i).readOutcome with
  | ReadOutcome.opened obs =>
      let evR := [Event.readOpenOk i, Event.readCompare i obs.observed]
      if obs.observed = contents then
        IterOut.ret (SWFResult.ok ⟨i, obs.fileBytes, obs.observed⟩) (top ++ evR)
      else if i = rc then
        IterOut.ret (SWFResult.error (SWFError.contentMismatch wErr))
          (top ++ evR ++ deferCloses (some i) none)
      else
        match swfWrite rc retryDelay i ((env i).writeOpen) none (some i) with
        | WriteStep.ret res evs => IterOut.ret res (top ++ evR ++ evs)
        | WriteStep.cont wErr2 wFileH2 evs =>
            IterOut.cont none wErr2 (some i) wFileH2 (top ++ evR ++ evs)
  | ReadOutcome.openFail e =>
      let evR := [Event.readOpenFail i e]
      match swfWrite rc retryDelay i ((env i).writeOpen) (some e) none with
      | WriteStep.ret res evs => IterOut.ret res (top ++ evR ++ evs)
      | WriteStep.cont wErr2 wFileH2 evs =>
          IterOut.cont (some e) wErr2 none wFileH2 (top ++ evR ++ evs)

/-- The retry loop of `safeWriteFile` after `retryCount += 1` (so `rc` is the
incremented bound and the loop condition is `i <= rc`).  The first argument
is the number of remaining iterations (`rc + 1 - i`); when it reaches zero
the loop has exited and the final content-mismatch return (wrapping the last
`err` and `wErr`) runs, preceded by the deferred closes. -/
def swfGo (env : FsEnv) (contents : List Nat) (rc retryDelay : Nat) :
    Nat → Nat → Option Err → Option Err → Option Nat → Option Nat →
    SWFResult × List Event
  | 0, _i, err, wErr, fileH, wFileH =>
      (SWFResult.error (SWFError.exhausted err wErr), deferCloses fileH wFileH)
  | r + 1, i, _err, wErr, fileH, wFileH =>
      match swfIter env contents rc retryDelay i wErr fileH wFileH with
      | IterOut.ret res evs => (res, evs)
      | IterOut.cont err2 wErr2 fH2 wH2 evs =>
          let rest := swfGo env contents rc retryDelay r (i + 1) err2 wErr2 fH2 wH2
          (rest.1, evs ++ rest.2)

/-- `safeWriteFile(fileName, contents, retryCount, retryDelay)`: the code
first does `retryCount += 1` and then loops `for i := 0; i <= retryCount`,
i.e. `retryCount + 2` iterations for the caller's value.  The filesystem
state of the single path `fileName` is abstracted by `env`. -/
def safeWriteFile (env : FsEnv) (contents : List Nat)
    (retryCount retryDelay : Nat) : SWFResult × List Event :=
  let rc := retryCount + 1
  swfGo env contents rc retryDelay (rc + 1) 0 none none none none

/-- Recognizer for read-and-compare attempt events. -/
def isCmpEv : Event → Bool
  | Event.readCompare _ _ => true
  | _ => false

/-- Recognizer for sleep events. -/
def isSleepEv : Event → Bool
  | Event.sleep _ => true
  | _ => false

/-- Recognizer for write-open attempts (successful or failed). -/
def isWriteOpenEv : Event → Bool
  | Event.writeOpenOk _ => true
  | Event.writeOpenFail _ _ => true
  | _ => false

/-- Recognizer for content-write events. -/
def isWriteEv : Event → Bool
  | Event.writeContents _ _ => true
  | _ => false

/-- Number of read-and-compare attempts in a trace. -/
def cmpCount : List Event → Nat
  | [] => 0
  | e :: es => (if isCmpEv e then 1 else 0) + cmpCount es

/-- Number of sleeps in a trace. -/
def sleepCount : List Event → Nat
  | [] => 0
  | e :: es => (if isSleepEv e then 1 else 0) + sleepCount es

/-- Number of write-open attempts in a trace. -/
def writeOpenCount : List Event → Nat
  | [] => 0
  | e :: es => (if isWriteOpenEv e then 1 else 0) + writeOpenCount es

/-- Number of content-write events in a trace. -/
def writeCount : List Event → Nat
  | [] => 0
  | e :: es => (if isWriteEv e then 1 else 0) + writeCount es

/-- Bytes left past the returned descriptor's offset: the verification copy
consumed `observed.length` bytes, so a caller reading without seeking gets
the rest of `fileBytes`. -/
def remainingBytes (s : SWFSuccess) : List Nat :=
  s.fileBytes.drop s.observed.length

/-- The part of the environment the code actually inspects: the read-open
outcome (with observed bytes) and the write-open outcome.  The two
`io.Copy` error components are excluded -- the code never branches on them. -/
def envCore (env : FsEnv) : Nat → ReadOutcome × Option Err :=
  fun i => ((env i).readOutcome, (env i).writeOpen)

/-- Truncation to 32 bits. -/
def w32 (x : Nat) : Nat := x % 4294967296

/-- 32-bit rotate right by `n` (for `x < 2^32`, `0 < n < 32`). -/
def rotr (n x : Nat) : Nat := (x >>> n) ||| w32 (x <<< (32 - n))

/-- SHA-256 `Ch` function. -/
def shaCh (x y z : Nat) : Nat := (x &&& y) ^^^ ((x ^^^ 4294967295) &&& z)

/-- SHA-256 `Maj` function. -/
def shaMaj (x y z : Nat) : Nat := (x &&& y) ^^^ (x &&& z) ^^^ (y &&& z)

/-- SHA-256 big Sigma0. -/
def bigSigma0 (x : Nat) : Nat := rotr 2 x ^^^ rotr 13 x ^^^ rotr 22 x

/-- SHA-256 big Sigma1. -/
def bigSigma1 (x : Nat) : Nat := rotr 6 x ^^^ rotr 11 x ^^^ rotr 25 x

/-- SHA-256 small sigma0. -/
def smallSigma0 (x : Nat) : Nat := rotr 7 x ^^^ rotr 18 x ^^^ (x >>> 3)

/-- SHA-256 small sigma1. -/
def smallSigma1 (x : Nat) : Nat := rotr 17 x ^^^ rotr 19 x ^^^ (x >>> 10)

/-- The SHA-256 round constants (FIPS 180-4 section 4.2.2, in decimal). -/
def K256 : List Nat :=
  [1116352408, 1899447441, 3049323471, 3921009573, 961987163,
   1508970993, 2453635748, 2870763221, 3624381080, 310598401,
   607225278, 1426881987, 1925078388, 2162078206, 2614888103,
   3248222580, 3835390401, 4022224774, 264347078, 604807628,
   770255983, 1249150122, 1555081692, 1996064986, 2554220882,
   2821834349, 2952996808, 3210313671, 3336571891, 3584528711,
   113926993, 338241895, 666307205, 773529912, 1294757372,
   1396182291, 1695183700, 1986661051, 2177026350, 2456956037,
   2730485921, 2820302411, 3259730800, 3345764771, 3516065817,
   3600352804, 4094571909, 275423344, 430227734, 506948616,
   659060556, 883997877, 958139571, 1322822218, 1537002063,
   1747873779, 1955562222, 2024104815, 2227730452, 2361852424,
   2428436474, 2756734187, 3204031479, 3329325298]

/-- The SHA-256 initial hash state (FIPS 180-4 section 5.3.3, in decimal). -/
def H0sha : List Nat :=
  [1779033703, 3144134277, 1013904242,
   2773480762, 1359893119, 2600822924,
   528734635, 1541459225]

/-- Big-endian byte rendering of `v` in `n` bytes. -/
def beBytes : Nat → Nat → List Nat
  | 0, _ => []
  | n + 1, v => beBytes n (v / 256) ++ [v % 256]

/-- Split a list into chunks of `n` (fueled; fuel = list length suffices). -/
def chunksGo {α : Type} (n : Nat) : Nat → List α → List (List α)
  | 0, _ => []
  | _, [] => []
  | fuel + 1, xs => xs.take n :: chunksGo n fuel (xs.drop n)

/-- Split a list into chunks of `n` elements. -/
def chunks {α : Type} (n : Nat) (xs : List α) : List (List α) :=
  chunksGo n xs.length xs

/-- Big-endian word value of a byte list. -/
def beWord (bs : List Nat) : Nat := bs.foldl (fun a b => a * 256 + b) 0

/-- SHA-256 padding: append 0x80, zeros to 56 mod 64, and the bit length
as 8 big-endian bytes. -/
def padMsg (ms : List Nat) : List Nat :=
  let L := ms.length
  let k := (64 + 55 - (L % 64)) % 64
  ms ++ [0x80] ++ List.replicate k 0 ++ beBytes 8 (8 * L)

/-- One extension step of the SHA-256 message schedule. -/
def schedStep (w : List Nat) : List Nat :=
  let n := w.length
  w ++ [w32 (smallSigma1 (w.getD (n - 2) 0) + w.getD (n - 7) 0 +
             smallSigma0 (w.getD (n - 15) 0) + w.getD (n - 16) 0)]

/-- Iterate the schedule extension `k` times. -/
def buildSchedule (w : List Nat) : Nat → List Nat
  | 0 => w
  | k + 1 => buildSchedule (schedStep w) k

/-- The 64-entry message schedule of a 64-byte block. -/
def messageSchedule (block : List Nat) : List Nat :=
  buildSchedule ((chunks 4 block).map beWord) 48

/-- One SHA-256 compression round on the 8-word working state. -/
def compressStep (k w : Nat) (st : List Nat) : List Nat :=
  match st with
  | [a, b, c, d, e0, f, g, h] =>
      let t1 := w32 (h + bigSigma1 e0 + shaCh e0 f g + k + w)
      let t2 := w32 (bigSigma0 a + shaMaj a b c)
      [w32 (t1 + t2), a, b, c, w32 (d + t1), e0, f, g]
  | _ => st

/-- SHA-256 compression of one 64-byte block into the hash state. -/
def compressBlock (st block : List Nat) : List Nat :=
  let ws := messageSchedule block
  let fin := (List.zip K256 ws).foldl (fun s kw => compressStep kw.1 kw.2 s) st
  (List.zip st fin).map fun p => w32 (p.1 + p.2)

/-- `crypto/sha256.Sum256`: the 32-byte SHA-256 digest of a byte sequence. -/
def sha256 (ms : List Nat) : List Nat :=
  ((chunks 64 (padMsg ms)).foldl compressBlock H0sha).foldr
    (fun wv acc => beBytes 4 wv ++ acc) []

/-- The 8 bits of a byte, most significant first. -/
def bitsOfByte (b : Nat) : List Bool :=
  (List.range 8).map (fun k => Nat.testBit b (7 - k))

/-- All bits of a byte sequence, in order. -/
def bytesBits (bs : List Nat) : List Bool :=
  bs.foldr (fun b acc => bitsOfByte b ++ acc) []

/-- Value of a bit group, most significant first. -/
def bitsVal (bits : List Bool) : Nat :=
  bits.foldl (fun a b => 2 * a + (if b then 1 else 0)) 0

/-- `base32.StdEncoding.WithPadding(base32.NoPadding)`: the standard RFC 4648
alphabet, 5-bit groups (last group zero-filled on the right), no padding
characters (`fileNameSafeEncoder` in the source). -/
def b32Chars (bs : List Nat) : List Char :=
  (chunks 5 (bytesBits bs)).map fun g =>
    ("ABCDEFGHIJKLMNOPQRSTUVWXYZ234567".toList).getD
      (bitsVal (g ++ List.replicate (5 - g.length) false)) 'A'

/-- `fileNameSafeEncoder.EncodeToString`. -/
def b32NoPad (bs : List Nat) : String := String.mk (b32Chars bs)

/-- The target path computed inside `Load`:
`filepath.Join(os.TempDir(), fileNameSafeEncoder.EncodeToString(sha256(image)) + "-" + name)`.
`tempDir` stands for the external `os.TempDir()`; `Join` is modelled as
path concatenation with a separator. -/
def targetPath (tempDir : String) (image : List Nat) (name : String) : String :=
  tempDir ++ "/" ++ (b32NoPad (sha256 image) ++ "-" ++ name)


/-- The errors `Load` can return: from buffering `d.dllData`, from
`safeWriteFile`, or from `syscall.LoadDLL`. -/
inductive LoadErr where
  | bufferFailed (e : Err)
  | writeFailed (e : SWFError)
  | loadFailed (e : Err)
deriving Repr, DecidableEq

/-- The three externally visible steps of `Load`'s cold path: buffering the
image reader, materializing the file (`safeWriteFile`), and the
`syscall.LoadDLL` module load. -/
inductive LoadEvent where
  | buffer
  | materialize
  | moduleLoad
deriving Repr, DecidableEq

/-- The `LazyDLL` struct state (the `io.Reader` field `dllData` is consumed
through the per-call environment; the mutex is implicit in the sequential
step model). `dll` is the cached `*syscall.DLL` (module handles are abstract
`Nat` tokens), `dllHandle` the `*os.File` returned by `safeWriteFile`. -/
structure LazyDLL where
  dll : Option Nat
  Name : String
  wroteDll : Bool
  dllHandle : Option SWFSuccess
  fileName : String
deriving Repr, DecidableEq

/-- External behaviour for one `Load` call: the result of
`io.Copy(contents, d.dllData)` (the buffered image bytes or an error), the
filesystem behaviour seen by the inner `safeWriteFile` call, and the result
of `syscall.LoadDLL(d.fileName)`. -/
structure LoadEnv where
  bufferResult : Except Err (List Nat)
  swfEnv : FsEnv
  loadDLL : Except Err Nat

/-- `time.Second` in nanoseconds: the retry delay `Load` passes. -/
def nsPerSecond : Nat := 1000000000

/-- The `LoadDLL` tail of `Load`'s cold path: on success the handle is
published to `d.dll` (the atomic store), on failure the state is unchanged. -/
def loadModulePhase (e : LoadEnv) (d : LazyDLL) :
    Option LoadErr × LazyDLL × List LoadEvent :=
  match e.loadDLL with
  | Except.error er => (some (LoadErr.loadFailed er), d, [LoadEvent.moduleLoad])
  | Except.ok h => (none, { d with dll := some h }, [LoadEvent.moduleLoad])

/-- One call to `LazyDLL.Load`, as a sequential state-transition step: the
atomic fast path (and the re-check under the lock) short-circuits when
`d.dll` is set; otherwise, if `!d.wroteDll`, the image is buffered, the
target path computed and stored in `d.fileName`, `safeWriteFile` invoked
with retry count 60 and delay `time.Second` (on success its descriptor is
stored and `wroteDll` set), and finally `syscall.LoadDLL(d.fileName)` runs.
Returns (error, new state, performed steps). -/
def loadStep (tempDir : String) (e : LoadEnv) (d : LazyDLL) :
    Option LoadErr × LazyDLL × List LoadEvent :=
  if d.dll.isSome then (none, d, [])
  else if d.wroteDll then loadModulePhase e d
  else
    match e.bufferResult with
    | Except.error er => (some (LoadErr.bufferFailed er), d, [LoadEvent.buffer])
    | Except.ok bytes =>
        let d1 := { d with fileName := targetPath tempDir bytes d.Name }
        match (safeWriteFile e.swfEnv bytes 60 nsPerSecond).1 with
        | SWFResult.error er =>
            (some (LoadErr.writeFailed er), { d1 with dllHandle := none },
             [LoadEvent.buffer, LoadEvent.materialize])
        | SWFResult.ok s =>
            let d2 := { d1 with dllHandle := some s, wroteDll := true }
            let out := loadModulePhase e d2
            (out.1, out.2.1, [LoadEvent.buffer, LoadEvent.materialize] ++ out.2.2)

/-- `LazyDLL.Handle`: `mustLoad` then `uintptr(d.dll.Handle)`.  The returned
handle is `none` exactly when `mustLoad` would panic. -/
def handleStep (tempDir : String) (e : LoadEnv) (d : LazyDLL) :
    Option Nat × LazyDLL × List LoadEvent :=
  let out := loadStep tempDir e d
  (out.2.1.dll, out.2.1, out.2.2)

/-- The `LazyProc` struct state (its `l` field is the `LazyDLL` threaded
alongside; resolved procedure addresses are abstract `Nat` tokens). -/
structure LazyProc where
  Name : String
  proc : Option Nat
deriving Repr, DecidableEq

/-- The errors `Find` can return: the owning library's `Load` error, or the
`FindProc` resolution error. -/
inductive FindErr where
  | loadErr (e : LoadErr)
  | findProcErr (e : Err)
deriving Repr, DecidableEq

/-- The two externally visible steps of `Find`'s cold path. -/
inductive FindEvent where
  | loadAttempt
  | resolveAttempt
deriving Repr, DecidableEq

/-- External behaviour for one `Find` call: the environment of the inner
`Load` call and the result of `p.l.dll.FindProc(p.Name)`. -/
structure FindEnv where
  loadEnv : LoadEnv
  findProc : Except Err Nat

/-- One call to `LazyProc.Find`: the cached `p.proc` short-circuits;
otherwise `p.l.Load()` runs first and only on its success is `FindProc`
invoked, whose success is published to `p.proc`. -/
def findStep (tempDir : String) (e : FindEnv) (p : LazyProc) (d : LazyDLL) :
    Option FindErr × LazyProc × LazyDLL × List FindEvent :=
  if p.proc.isSome then (none, p, d, [])
  else
    match loadStep tempDir e.loadEnv d with
    | (some er, d1, _) => (some (FindErr.loadErr er), p, d1, [FindEvent.loadAttempt])
    | (none, d1, _) =>
        match e.findProc with
        | Except.error er =>
            (some (FindErr.findProcErr er), p, d1,
             [FindEvent.loadAttempt, FindEvent.resolveAttempt])
        | Except.ok a =>
            (none, { p with proc := some a }, d1,
             [FindEvent.loadAttempt, FindEvent.resolveAttempt])

/-- `LazyProc.Addr`: `mustFind` then `p.proc.Addr()`.  The returned address
is `none` exactly when `mustFind` would panic. -/
def addrStep (tempDir : String) (e : FindEnv) (p : LazyProc) (d : LazyDLL) :
    Option Nat × LazyProc × LazyDLL × List FindEvent :=
  let out := findStep tempDir e p d
  (out.2.1.proc, out.2.1, out.2.2.1, out.2.2.2)

/-- Concrete environment: every read-open succeeds, the file holds byte `1`
(fully observed), every write-open succeeds. -/
def envMismatch : FsEnv :=
  fun _ => ⟨ReadOutcome.opened ⟨[1], [1]⟩, none, none, none⟩

/-- Concrete environment: the first read observes `[5]`, afterwards the
read-open fails with error `3` and the write-open fails with error `4`. -/
def envC6 : FsEnv :=
  fun i => if i = 0 then ⟨ReadOutcome.opened ⟨[5], [5]⟩, none, none, none⟩
           else ⟨ReadOutcome.openFail 3, none, some 4, none⟩

/-- Concrete environment: read-open fails, write-open fails, and both copy
errors are present (to be ignored). -/
def envCopyErrA : FsEnv :=
  fun _ => ⟨ReadOutcome.openFail 3, some 9, some 4, some 5⟩

/-- Same core as `envCopyErrA` but without the copy errors. -/
def envCopyErrB : FsEnv :=
  fun _ => ⟨ReadOutcome.openFail 3, none, some 4, none⟩

/-- Concrete environment: the file holds `[1, 2, 7]` but the verification
copy observes only the prefix `[1, 2]` (a short transfer whose error the
code ignores). -/
def envShortRead : FsEnv :=
  fun _ => ⟨ReadOutcome.opened ⟨[1, 2, 7], [1, 2]⟩, none, none, none⟩

/-- Concrete environment: the file holds `[8]`, fully observed. -/
def envC10w : FsEnv :=
  fun _ => ⟨ReadOutcome.opened ⟨[8], [8]⟩, none, none, none⟩

/-- Concrete environment: the file holds `[3, 4]`, fully observed. -/
def envC2w : FsEnv :=
  fun _ => ⟨ReadOutcome.opened ⟨[3, 4], [3, 4]⟩, none, none, none⟩

/-- Concrete environment where `safeWriteFile` succeeds immediately on
content `[9]`. -/
def envSwfOk : FsEnv :=
  fun _ => ⟨ReadOutcome.opened ⟨[9], [9]⟩, none, none, none⟩

/-- A fresh `LazyDLL` (nothing cached) named `x.bin`. -/
def dllFresh : LazyDLL := ⟨none, "x.bin", false, none, ""⟩

/-- A `LazyDLL` whose module is already loaded (handle `42`). -/
def dllLoaded : LazyDLL := ⟨some 42, "n", true, none, "p"⟩

/-- A `LazyDLL` that has already materialized its file but not yet loaded. -/
def dllWrote : LazyDLL := ⟨none, "a", true, none, "p"⟩

/-- A fresh `LazyDLL` named `a`. -/
def dllFreshA : LazyDLL := ⟨none, "a", false, none, ""⟩

/-- A load environment whose materialization cannot succeed (reads fail,
writes fail) and whose module load fails with error `7`. -/
def loadEnvFailing : LoadEnv :=
  ⟨Except.ok [1, 2, 3], fun _ => ⟨ReadOutcome.openFail 0, none, some 1, none⟩,
   Except.error 7⟩

/-- A load environment whose materialization succeeds on the first read
(file already holds `[1, 2, 3]`) and whose module load yields handle `11`. -/
def loadEnvOk : LoadEnv :=
  ⟨Except.ok [1, 2, 3], fun _ => ⟨ReadOutcome.opened ⟨[1, 2, 3], [1, 2, 3]⟩, none, none, none⟩,
   Except.ok 11⟩

/-- A load environment that never reaches its components (for cached-state
steps). -/
def loadEnvUnused : LoadEnv :=
  ⟨Except.error 1, fun _ => ⟨ReadOutcome.openFail 0, none, none, none⟩, Except.error 2⟩

/-- A load environment that buffers `[9]`, materializes instantly and then
fails the module load with error `7`. -/
def loadEnvC5 : LoadEnv := ⟨Except.ok [9], envSwfOk, Except.error 7⟩

/-- A find environment whose inner load fails with error `7` and whose
`FindProc` would yield address `9`. -/
def findEnvC8 : FindEnv :=
  ⟨⟨Except.error 1, fun _ => ⟨ReadOutcome.openFail 0, none, none, none⟩, Except.error 7⟩,
   Except.ok 9⟩

/-- A `LazyProc` not yet resolved. -/
def procUnresolved : LazyProc := ⟨"f", none⟩

/-- A `LazyProc` already resolved to address `5`. -/
def procResolved : LazyProc := ⟨"f", some 5⟩

theorem cmpCount_append (a b : List Event) :
    cmpCount (a ++ b) = cmpCount a + cmpCount b := by
  induction a with
  | nil => simp [cmpCount]
  | cons e es ih => simp [cmpCount, ih]; omega

theorem sleepCount_append (a b : List Event) :
    sleepCount (a ++ b) = sleepCount a + sleepCount b := by
  induction a with
  | nil => simp [sleepCount]
  | cons e es ih => simp [sleepCount, ih]; omega

theorem cmpCount_topCloses (a b : Option Nat) : cmpCount (topCloses a b) = 0 := by
  cases a <;> cases b <;> rfl

theorem sleepCount_topCloses (a b : Option Nat) : sleepCount (topCloses a b) = 0 := by
  cases a <;> cases b <;> rfl

theorem cmpCount_deferCloses (a b : Option Nat) : cmpCount (deferCloses a b) = 0 := by
  cases a <;> cases b <;> rfl

theorem sleepCount_deferCloses (a b : Option Nat) : sleepCount (deferCloses a b) = 0 := by
  cases a <;> cases b <;> rfl


theorem swfGo_succ_eq (env : FsEnv) (contents : List Nat) (rc D r i : Nat)
    (err wErr : Option Err) (fileH wFileH : Option Nat) :
    swfGo env contents rc D (r + 1) i err wErr fileH wFileH =
      match swfIter env contents rc D i wErr fileH wFileH with
      | IterOut.ret res evs => (res, evs)
      | IterOut.cont err2 wErr2 fH2 wH2 evs =>
          ((swfGo env contents rc D r (i + 1) err2 wErr2 fH2 wH2).1,
           evs ++ (swfGo env contents rc D r (i + 1) err2 wErr2 fH2 wH2).2) := by
  simp only [swfGo]

/-- A non-final iteration that observes a content mismatch continues into the
next iteration: one read-and-compare happens, `err` becomes nil, the read
descriptor stays open, and a sleep happens exactly when `i + 1 < rc`. -/
theorem swfIter_mismatch_cont (env : FsEnv) (contents : List Nat)
    (rc D i : Nat) (wErr : Option Err) (fH wH : Option Nat) (obs : ReadObs)
    (hirc : i ≠ rc)
    (ho : (env i).readOutcome = ReadOutcome.opened obs)
    (hne : obs.observed ≠ contents) :
    ∃ w2 h2 evs, swfIter env contents rc D i wErr fH wH =
        IterOut.cont none w2 (some i) h2 evs ∧
      cmpCount evs = 1 ∧
      sleepCount evs = (if i + 1 < rc then 1 else 0) := by
  simp only [swfIter, ho]
  rw [if_neg hne, if_neg hirc]
  rcases hw : (env i).writeOpen with _ | ew <;>
    simp only [hw, swfWrite] <;>
    [skip; rw [if_neg hirc]] <;>
    refine ⟨_, _, _, rfl, ?_, ?_⟩ <;>
    simp [cmpCount_append, sleepCount_append, cmpCount_topCloses,
      sleepCount_topCloses, cmpCount, sleepCount, isCmpEv, isSleepEv] <;>
    split_ifs <;>
    simp [cmpCount, sleepCount, isCmpEv, isSleepEv]

/-- The final iteration under a content mismatch returns the
content-mismatch error wrapping the current `wErr`, after its single
read-and-compare and with no sleep. -/
theorem swfIter_mismatch_last (env : FsEnv) (contents : List Nat)
    (rc D : Nat) (wErr : Option Err) (fH wH : Option Nat) (obs : ReadObs)
    (ho : (env rc).readOutcome = ReadOutcome.opened obs)
    (hne : obs.observed ≠ contents) :
    ∃ evs, swfIter env contents rc D rc wErr fH wH =
        IterOut.ret (SWFResult.error (SWFError.contentMismatch wErr)) evs ∧
      cmpCount evs = 1 ∧ sleepCount evs = 0 := by
  simp only [swfIter, ho]
  rw [if_neg hne]
  simp only [if_true]
  refine ⟨_, rfl, ?_, ?_⟩ <;>
    simp [cmpCount_append, sleepCount_append, cmpCount_topCloses,
      sleepCount_topCloses, cmpCount_deferCloses, sleepCount_deferCloses,
      cmpCount, sleepCount, isCmpEv, isSleepEv]

/-- Under a persistent mismatch (every read-open succeeds but the observed
bytes differ from `contents`), the loop runs all its remaining iterations,
performs one read-and-compare per iteration, sleeps `remaining - 2` times,
and ends with the content-mismatch error return. -/
theorem swfGo_mismatch_run (env : FsEnv) (contents : List Nat) (rc D : Nat)
    (hm : ∀ i, ∃ obs, (env i).readOutcome = ReadOutcome.opened obs ∧
      obs.observed ≠ contents) :
    ∀ r, ∀ i err wErr fileH wFileH, i + (r + 1) = rc + 1 →
      (∃ w, (swfGo env contents rc D (r + 1) i err wErr fileH wFileH).1
          = SWFResult.error (SWFError.contentMismatch w)) ∧
      cmpCount (swfGo env contents rc D (r + 1) i err wErr fileH wFileH).2 = r + 1 ∧
      sleepCount (swfGo env contents rc D (r + 1) i err wErr fileH wFileH).2 = r + 1 - 2 := by
  intro r
  induction r with
  | zero =>
      intro i err wErr fileH wFileH hi
      have hirc : i = rc := by omega
      subst hirc
      obtain ⟨obs, ho, hne⟩ := hm i
      obtain ⟨evs, hit, hc, hs⟩ :=
        swfIter_mismatch_last env contents i D wErr fileH wFileH obs ho hne
      rw [swfGo_succ_eq, hit]
      exact ⟨⟨wErr, rfl⟩, hc, hs⟩
  | succ r ih =>
      intro i err wErr fileH wFileH hi
      have hirc : i ≠ rc := by omega
      obtain ⟨obs, ho, hne⟩ := hm i
      obtain ⟨w2, h2, evs, hit, hc, hs⟩ :=
        swfIter_mismatch_cont env contents rc D i wErr fileH wFileH obs hirc ho hne
      rw [swfGo_succ_eq, hit]
      obtain ⟨hres, hcr, hsr⟩ := ih (i + 1) none w2 (some i) h2 (by omega)
      refine ⟨hres, ?_, ?_⟩
      · simp only [cmpCount_append, hc, hcr]
        omega
      · simp only [sleepCount_append, hs, hsr]
        by_cases hlt : i + 1 < rc
        · rw [if_pos hlt]
          omega
        · rw [if_neg hlt]
          omega

/-- A non-final iteration on which no verified match happens (the read-open
fails, or it succeeds with differing observed bytes) always continues into
the next iteration: no error return is possible before the final attempt. -/
theorem swfIter_cont_of_nomatch (env : FsEnv) (contents : List Nat)
    (rc D i : Nat) (wErr : Option Err) (fH wH : Option Nat)
    (hirc : i ≠ rc)
    (hno : ∀ obs, (env i).readOutcome = ReadOutcome.opened obs →
      obs.observed ≠ contents) :
    ∃ e2 w2 f2 h2 evs,
      swfIter env contents rc D i wErr fH wH = IterOut.cont e2 w2 f2 h2 evs := by
  rcases ho : (env i).readOutcome with e | obs
  · simp only [swfIter, ho]
    rcases hw : (env i).writeOpen with _ | ew <;> simp only [hw, swfWrite]
    · exact ⟨_, _, _, _, _, rfl⟩
    · rw [if_neg hirc]
      exact ⟨_, _, _, _, _, rfl⟩
  · have hne := hno obs ho
    simp only [swfIter, ho]
    rw [if_neg hne, if_neg hirc]
    rcases hw : (env i).writeOpen with _ | ew <;> simp only [hw, swfWrite]
    · exact ⟨_, _, _, _, _, rfl⟩
    · rw [if_neg hirc]
      exact ⟨_, _, _, _, _, rfl⟩

/-- On the final iteration, a failed read-open followed by a failed
write-open returns the write error wrapping both. -/
theorem swfIter_final_writeFail (env : FsEnv) (contents : List Nat)
    (rc D : Nat) (wErr : Option Err) (fH wH : Option Nat) (er ew : Err)
    (hr : (env rc).readOutcome = ReadOutcome.openFail er)
    (hw : (env rc).writeOpen = some ew) :
    ∃ evs, swfIter env contents rc D rc wErr fH wH =
      IterOut.ret (SWFResult.error (SWFError.writeOpenFailed (some er) ew)) evs := by
  simp only [swfIter, hr, hw, swfWrite, if_true]
  exact ⟨_, rfl⟩

/-- If no iteration before the final one verifies a match, and on the final
iteration the read-open fails with `er` and the write-open fails with `ew`,
the whole loop returns the write error wrapping both. -/
theorem swfGo_final_writeFail (env : FsEnv) (contents : List Nat)
    (rc D : Nat) (er ew : Err)
    (hmm : ∀ j, j < rc → ∀ obs, (env j).readOutcome = ReadOutcome.opened obs →
      obs.observed ≠ contents)
    (hr : (env rc).readOutcome = ReadOutcome.openFail er)
    (hw : (env rc).writeOpen = some ew) :
    ∀ r, ∀ i err wErr fileH wFileH, i + (r + 1) = rc + 1 →
      (swfGo env contents rc D (r + 1) i err wErr fileH wFileH).1
        = SWFResult.error (SWFError.writeOpenFailed (some er) ew) := by
  intro r
  induction r with
  | zero =>
      intro i err wErr fileH wFileH hi
      have hirc : i = rc := by omega
      subst hirc
      obtain ⟨evs, hit⟩ :=
        swfIter_final_writeFail env contents i D wErr fileH wFileH er ew hr hw
      rw [swfGo_succ_eq, hit]
  | succ r ih =>
      intro i err wErr fileH wFileH hi
      have hirc : i ≠ rc := by omega
      obtain ⟨e2, w2, f2, h2, evs, hit⟩ :=
        swfIter_cont_of_nomatch env contents rc D i wErr fileH wFileH hirc
          (fun obs ho => hmm i (by omega) obs ho)
      rw [swfGo_succ_eq, hit]
      exact ih (i + 1) e2 w2 f2 h2 (by omega)

/-- A successful iteration return carries exactly the verified observation:
`s.observed = contents` and the descriptor index is the iteration index. -/
theorem swfIter_ret_ok (env : FsEnv) (contents : List Nat)
    (rc D i : Nat) (wErr : Option Err) (fH wH : Option Nat)
    (s : SWFSuccess) (evs : List Event)
    (h : swfIter env contents rc D i wErr fH wH = IterOut.ret (SWFResult.ok s) evs) :
    s.observed = contents ∧ s.fd = i := by
  rcases ho : (env i).readOutcome with e | obs
  · simp only [swfIter, ho] at h
    rcases hw : (env i).writeOpen with _ | ew <;> simp only [hw, swfWrite] at h
    · simp at h
    · by_cases hirc : i = rc
      · rw [if_pos hirc] at h
        simp at h
      · rw [if_neg hirc] at h
        simp at h
  · simp only [swfIter, ho] at h
    by_cases hc : obs.observed = contents
    · rw [if_pos hc] at h
      simp only [IterOut.ret.injEq, SWFResult.ok.injEq] at h
      rw [← h.1]
      exact ⟨hc, rfl⟩
    · rw [if_neg hc] at h
      by_cases hirc : i = rc
      · rw [if_pos hirc] at h
        simp at h
      · rw [if_neg hirc] at h
        rcases hw : (env i).writeOpen with _ | ew <;> simp only [hw, swfWrite] at h
        · simp at h
        · rw [if_neg hirc] at h
          simp at h

/-- Every successful run of the loop returns a descriptor whose observed
bytes are exactly `contents`. -/
theorem swfGo_ok_observed (env : FsEnv) (contents : List Nat) (rc D : Nat) :
    ∀ r i err wErr fileH wFileH s,
      (swfGo env contents rc D r i err wErr fileH wFileH).1 = SWFResult.ok s →
      s.observed = contents := by
  intro r
  induction r with
  | zero =>
      intro i err wErr fH wH s h
      simp [swfGo] at h
  | succ r ih =>
      intro i err wErr fH wH s h
      rw [swfGo_succ_eq] at h
      cases hit : swfIter env contents rc D i wErr fH wH with
      | ret res evs =>
          rw [hit] at h
          simp only at h
          subst h
          exact (swfIter_ret_ok env contents rc D i wErr fH wH s evs hit).1
      | cont e2 w2 f2 h2 evs =>
          rw [hit] at h
          simp only at h
          exact ih (i + 1) e2 w2 f2 h2 s h

theorem swfIter_core_eq (env1 env2 : FsEnv) (contents : List Nat)
    (rc D i : Nat) (wErr : Option Err) (fH wH : Option Nat)
    (hR : (env1 i).readOutcome = (env2 i).readOutcome)
    (hW : (env1 i).writeOpen = (env2 i).writeOpen) :
    swfIter env1 contents rc D i wErr fH wH =
      swfIter env2 contents rc D i wErr fH wH := by
  simp only [swfIter, hR, hW]

/-- The whole loop (result and trace) depends on the environment only through
its core: the read-open outcomes and the write-open outcomes. -/
theorem swfGo_core_eq (env1 env2 : FsEnv) (contents : List Nat) (rc D : Nat)
    (h : envCore env1 = envCore env2) :
    ∀ r i err wErr fileH wFileH,
      swfGo env1 contents rc D r i err wErr fileH wFileH =
        swfGo env2 contents rc D r i err wErr fileH wFileH := by
  have hR : ∀ i, (env1 i).readOutcome = (env2 i).readOutcome :=
    fun i => congrArg Prod.fst (congrFun h i)
  have hW : ∀ i, (env1 i).writeOpen = (env2 i).writeOpen :=
    fun i => congrArg Prod.snd (congrFun h i)
  intro r
  induction r with
  | zero =>
      intro i err wErr fH wH
      rfl
  | succ r ih =>
      intro i err wErr fH wH
      rw [swfGo_succ_eq, swfGo_succ_eq,
        swfIter_core_eq env1 env2 contents rc D i wErr fH wH (hR i) (hW i)]
      cases hit : swfIter env2 contents rc D i wErr fH wH with
      | ret res evs => rfl
      | cont e2 w2 f2 h2 evs =>
          simp only
          rw [ih (i + 1) e2 w2 f2 h2]

/-- C1 (counterexample): with retry bound `N = 0` and a persistent mismatch
(the file always holds `[1]`, fully observed, while `contents = [0]`),
`safeWriteFile` performs `2` read-and-compare attempts before returning the
content-mismatch error -- not the `N + 1 = 1` attempts the claim states. -/
theorem claim_C1_counterexample :
    (safeWriteFile envMismatch [0] 0 5).1
        = SWFResult.error (SWFError.contentMismatch none) ∧
      cmpCount (safeWriteFile envMismatch [0] 0 5).2 = 2 ∧ (2 : Nat) ≠ 0 + 1 := by
  decide

/-- C1 (amended): under a persistent mismatch (every read-open succeeds and
observes bytes different from `contents`), `safeWriteFile(_, contents, N, D)`
returns a content-mismatch error after performing exactly `N + 2`
read-and-compare attempts (the code increments the caller's bound by one and
then iterates from `0` to the incremented bound inclusive). -/
theorem claim_C1_theorem (env : FsEnv) (contents : List Nat) (N D : Nat)
    (hm : ∀ i, ∃ obs, (env i).readOutcome = ReadOutcome.opened obs ∧
      obs.observed ≠ contents) :
    (∃ w, (safeWriteFile env contents N D).1
        = SWFResult.error (SWFError.contentMismatch w)) ∧
      cmpCount (safeWriteFile env contents N D).2 = N + 2 := by
  have h := swfGo_mismatch_run env contents (N + 1) D hm (N + 1) 0
    none none none none (by omega)
  simp only [safeWriteFile]
  exact ⟨h.1, h.2.1⟩

/-- C1 (witness): the amended claim evaluated at the concrete persistent
mismatch environment with `N = 0`. -/
theorem claim_C1_witness :
    (∃ w, (safeWriteFile envMismatch [0] 0 5).1
        = SWFResult.error (SWFError.contentMismatch w)) ∧
      cmpCount (safeWriteFile envMismatch [0] 0 5).2 = 0 + 2 :=
  claim_C1_theorem envMismatch [0] 0 5 (fun _ => ⟨⟨[1], [1]⟩, rfl, by decide⟩)

/-- C2: if the file already holds exactly `contents` and the first read-open
succeeds observing it in full, `safeWriteFile` returns on the first
iteration: the result is the read descriptor opened at iteration `0` with
the verified content, the trace is exactly the read-open and the compare
(in particular zero write-opens, zero content writes, and no close of the
returned descriptor -- ownership is transferred). -/
theorem claim_C2_theorem (env : FsEnv) (contents : List Nat) (N D : Nat)
    (h0 : (env 0).readOutcome = ReadOutcome.opened ⟨contents, contents⟩) :
    safeWriteFile env contents N D =
        (SWFResult.ok ⟨0, contents, contents⟩,
         [Event.readOpenOk 0, Event.readCompare 0 contents]) ∧
      writeOpenCount (safeWriteFile env contents N D).2 = 0 ∧
      writeCount (safeWriteFile env contents N D).2 = 0 ∧
      Event.closeRead 0 ∉ (safeWriteFile env contents N D).2 := by
  have hmain : safeWriteFile env contents N D =
      (SWFResult.ok ⟨0, contents, contents⟩,
       [Event.readOpenOk 0, Event.readCompare 0 contents]) := by
    simp only [safeWriteFile]
    rw [swfGo_succ_eq]
    simp [swfIter, h0, topCloses]
  refine ⟨hmain, ?_, ?_, ?_⟩ <;> rw [hmain] <;>
    simp [writeOpenCount, writeCount, isWriteOpenEv, isWriteEv]

/-- C2 (witness): the theorem evaluated with a file already holding
`[3, 4]`. -/
theorem claim_C2_witness :
    safeWriteFile envC2w [3, 4] 5 9 =
        (SWFResult.ok ⟨0, [3, 4], [3, 4]⟩,
         [Event.readOpenOk 0, Event.readCompare 0 [3, 4]]) ∧
      writeOpenCount (safeWriteFile envC2w [3, 4] 5 9).2 = 0 ∧
      writeCount (safeWriteFile envC2w [3, 4] 5 9).2 = 0 ∧
      Event.closeRead 0 ∉ (safeWriteFile envC2w [3, 4] 5 9).2 :=
  claim_C2_theorem envC2w [3, 4] 5 9 rfl

/-- C6: if every pre-final iteration fails to verify a match, and on the
final iteration the read-open fails with `er` and then the write-open fails
with `ew`, `safeWriteFile` returns (with no descriptor) the write error
wrapping both the most recent read error `er` and the write error `ew`. -/
theorem claim_C6_theorem (env : FsEnv) (contents : List Nat) (N D : Nat)
    (er ew : Err)
    (hmm : ∀ j, j < N + 1 → ∀ obs,
      (env j).readOutcome = ReadOutcome.opened obs → obs.observed ≠ contents)
    (hr : (env (N + 1)).readOutcome = ReadOutcome.openFail er)
    (hw : (env (N + 1)).writeOpen = some ew) :
    (safeWriteFile env contents N D).1
      = SWFResult.error (SWFError.writeOpenFailed (some er) ew) := by
  have h := swfGo_final_writeFail env contents (N + 1) D er ew hmm hr hw
    (N + 1) 0 none none none none (by omega)
  simpa only [safeWriteFile] using h

/-- C6 (witness): with `N = 0`, a first read observing `[5] ≠ [0]`, and a
final iteration whose read-open fails with `3` and write-open fails with
`4`, the result wraps both errors. -/
theorem claim_C6_witness :
    (safeWriteFile envC6 [0] 0 5).1
      = SWFResult.error (SWFError.writeOpenFailed (some 3) 4) :=
  claim_C6_theorem envC6 [0] 0 5 3 4
    (fun j hj obs hob => by
      have hj0 : j = 0 := by omega
      subst hj0
      simp only [envC6, if_pos rfl] at hob
      cases hob
      decide)
    rfl rfl

/-- C7 (counterexample): with `N = 0` and a persistent mismatch the loop
performs two consecutive read-and-compare attempts with zero sleeps between
them, refuting that a sleep of `D` separates every pair of consecutive
attempts. -/
theorem claim_C7_counterexample :
    cmpCount (safeWriteFile envMismatch [0] 0 7).2 = 2 ∧
      sleepCount (safeWriteFile envMismatch [0] 0 7).2 = 0 := by
  decide

/-- C7 (amended): the loop sleeps for `D` after iteration `i` exactly when
`i + 1` is strictly below the incremented bound `N + 1`; hence in a full
persistent-mismatch run there are exactly `N` sleeps for `N + 2`
read-and-compare attempts -- every consecutive pair of attempts is separated
by a sleep except the final pair. -/
theorem claim_C7_theorem (env : FsEnv) (contents : List Nat) (N D : Nat)
    (hm : ∀ i, ∃ obs, (env i).readOutcome = ReadOutcome.opened obs ∧
      obs.observed ≠ contents) :
    sleepCount (safeWriteFile env contents N D).2 = N ∧
      cmpCount (safeWriteFile env contents N D).2 = N + 2 := by
  have h := swfGo_mismatch_run env contents (N + 1) D hm (N + 1) 0
    none none none none (by omega)
  simp only [safeWriteFile]
  exact ⟨h.2.2, h.2.1⟩

/-- C7 (witness): the amended claim at the concrete mismatch environment
with `N = 0`: zero sleeps, two attempts. -/
theorem claim_C7_witness :
    sleepCount (safeWriteFile envMismatch [0] 0 7).2 = 0 ∧
      cmpCount (safeWriteFile envMismatch [0] 0 7).2 = 0 + 2 :=
  claim_C7_theorem envMismatch [0] 0 7 (fun _ => ⟨⟨[1], [1]⟩, rfl, by decide⟩)

/-- C9: the result and full trace of `safeWriteFile` are independent of the
errors returned by the two `io.Copy` content transfers (the verification
read copy and the contents write copy, including a write to the nil
descriptor after a failed non-final write-open): any two environments that
agree on read-open outcomes and write-open outcomes produce identical
behaviour. -/
theorem claim_C9_theorem (env1 env2 : FsEnv) (contents : List Nat) (N D : Nat)
    (h : envCore env1 = envCore env2) :
    safeWriteFile env1 contents N D = safeWriteFile env2 contents N D := by
  simp only [safeWriteFile]
  exact swfGo_core_eq env1 env2 contents (N + 1) D h (N + 1 + 1) 0
    none none none none

/-- C9 (witness): two concrete environments differing only in both copy
errors give identical runs. -/
theorem claim_C9_witness :
    envCore envCopyErrA = envCore envCopyErrB ∧
      safeWriteFile envCopyErrA [1] 0 2 = safeWriteFile envCopyErrB [1] 0 2 :=
  ⟨rfl, claim_C9_theorem envCopyErrA envCopyErrB [1] 0 2 rfl⟩

/-- C10 (counterexample): the file holds `[1, 2, 7]` but the verification
copy suffers a short transfer after exactly `[1, 2]` (its error is
discarded); `safeWriteFile` succeeds, yet the returned descriptor is not at
end-of-file: a caller reading on obtains `[7]`. -/
theorem claim_C10_counterexample :
    (safeWriteFile envShortRead [1, 2] 0 5).1
        = SWFResult.ok ⟨0, [1, 2, 7], [1, 2]⟩ ∧
      remainingBytes ⟨0, [1, 2, 7], [1, 2]⟩ = [7] := by
  decide

/-- C10 (amended): on every successful return the verification step has
consumed exactly the matched content: the descriptor's offset equals the
length of `contents`; and provided the verification copy observed the whole
file, the offset is at end-of-file, so a caller reading without seeking
obtains no bytes. -/
theorem claim_C10_theorem (env : FsEnv) (contents : List Nat) (N D : Nat)
    (s : SWFSuccess)
    (h : (safeWriteFile env contents N D).1 = SWFResult.ok s) :
    s.observed = contents ∧ s.observed.length = contents.length ∧
      (s.fileBytes = s.observed → remainingBytes s = []) := by
  have ho := swfGo_ok_observed env contents (N + 1) D (N + 1 + 1) 0
    none none none none s (by simpa only [safeWriteFile] using h)
  refine ⟨ho, by rw [ho], fun hfb => ?_⟩
  simp [remainingBytes, hfb, List.drop_length]

/-- C10 (witness): the amended claim at a concrete fully-observed success. -/
theorem claim_C10_witness :
    (⟨0, [8], [8]⟩ : SWFSuccess).observed = [8] ∧
      (⟨0, [8], [8]⟩ : SWFSuccess).observed.length = ([8] : List Nat).length ∧
      ((⟨0, [8], [8]⟩ : SWFSuccess).fileBytes = (⟨0, [8], [8]⟩ : SWFSuccess).observed →
        remainingBytes ⟨0, [8], [8]⟩ = []) :=
  claim_C10_theorem envC10w [8] 0 5 ⟨0, [8], [8]⟩ (by decide)

/-- On the cold path (nothing cached, nothing written) with a successfully
buffered image `b`, `Load` stores the content-addressed target path in
`d.fileName`, whatever the materialization and module-load outcomes. -/
theorem loadStep_fileName (tempDir : String) (e : LoadEnv) (d : LazyDLL)
    (b : List Nat)
    (h1 : d.dll = none) (hw : d.wroteDll = false)
    (hb : e.bufferResult = Except.ok b) :
    (loadStep tempDir e d).2.1.fileName = targetPath tempDir b d.Name := by
  simp only [loadStep, h1, hw, hb, Option.isSome_none, Bool.false_eq_true,
    if_false, Bool.false_eq_true]
  rcases hs : (safeWriteFile e.swfEnv b 60 nsPerSecond).1 with s | er
  · rcases hl : e.loadDLL with er2 | h2 <;>
      simp [loadModulePhase, hl]
  · simp

/-- C3: the target path used for materialization is a deterministic function
of the image bytes and the logical name alone: two `Load` runs (two distinct
states and environments, e.g. in different processes) that buffer equal
bytes under equal names both store the identical content-addressed path
`targetPath tempDir b n` -- no random component enters the computation. -/
theorem claim_C3_theorem (tempDir : String) (e1 e2 : LoadEnv)
    (d1 d2 : LazyDLL) (b : List Nat) (n : String)
    (h1 : d1.dll = none) (h2 : d2.dll = none)
    (hw1 : d1.wroteDll = false) (hw2 : d2.wroteDll = false)
    (hb1 : e1.bufferResult = Except.ok b) (hb2 : e2.bufferResult = Except.ok b)
    (hn1 : d1.Name = n) (hn2 : d2.Name = n) :
    (loadStep tempDir e1 d1).2.1.fileName = targetPath tempDir b n ∧
      (loadStep tempDir e2 d2).2.1.fileName = targetPath tempDir b n ∧
      (loadStep tempDir e1 d1).2.1.fileName = (loadStep tempDir e2 d2).2.1.fileName := by
  have ha := loadStep_fileName tempDir e1 d1 b h1 hw1 hb1
  have hbn := loadStep_fileName tempDir e2 d2 b h2 hw2 hb2
  rw [hn1] at ha
  rw [hn2] at hbn
  exact ⟨ha, hbn, by rw [ha, hbn]⟩

/-- C3 (witness): two different processes (one whose materialization fails
throughout, one whose materialization and load succeed) with the same image
`[1, 2, 3]` and name `x.bin` compute the same target path. -/
theorem claim_C3_witness :
    (loadStep "/tmp" loadEnvFailing dllFresh).2.1.fileName
        = targetPath "/tmp" [1, 2, 3] "x.bin" ∧
      (loadStep "/tmp" loadEnvOk dllFresh).2.1.fileName
        = targetPath "/tmp" [1, 2, 3] "x.bin" ∧
      (loadStep "/tmp" loadEnvFailing dllFresh).2.1.fileName
        = (loadStep "/tmp" loadEnvOk dllFresh).2.1.fileName :=
  claim_C3_theorem "/tmp" loadEnvFailing loadEnvOk dllFresh dllFresh
    [1, 2, 3] "x.bin" rfl rfl rfl rfl rfl rfl rfl rfl

/-- C4: once `Load` has succeeded (the `dll` pointer is set), every
subsequent `Load` is a no-op -- no error, no state change, no buffering, no
materialization, no module load -- and `Handle` returns the identical cached
handle; in particular the `dll` pointer is never reset. -/
theorem claim_C4_theorem (tempDir : String) (e : LoadEnv) (d : LazyDLL)
    (h : Nat) (hd : d.dll = some h) :
    loadStep tempDir e d = (none, d, []) ∧
      handleStep tempDir e d = (some h, d, []) ∧
      (loadStep tempDir e d).2.1.dll = some h := by
  have h1 : loadStep tempDir e d = (none, d, []) := by
    simp [loadStep, hd]
  exact ⟨h1, by simp [handleStep, h1, hd], by rw [h1]; exact hd⟩

/-- C4 (witness): a loaded `LazyDLL` with handle `42` short-circuits every
further `Load`/`Handle`. -/
theorem claim_C4_witness :
    loadStep "/tmp" loadEnvUnused dllLoaded = (none, dllLoaded, []) ∧
      handleStep "/tmp" loadEnvUnused dllLoaded = (some 42, dllLoaded, []) ∧
      (loadStep "/tmp" loadEnvUnused dllLoaded).2.1.dll = some 42 :=
  claim_C4_theorem "/tmp" loadEnvUnused dllLoaded 42 rfl

/-- C5: on the cold path with buffered bytes `b`: (i) if materialization
succeeds with descriptor `s` but the module load fails with `er`, `Load`
returns that error with `wroteDll` set, and every subsequent `Load` on the
resulting state performs only the module-load step (no buffering, no path
computation, no materialization); (ii) if materialization itself fails,
`wroteDll` remains false. -/
theorem claim_C5_theorem (tempDir : String) (e : LoadEnv) (d : LazyDLL)
    (b : List Nat)
    (hd : d.dll = none) (hw : d.wroteDll = false)
    (hb : e.bufferResult = Except.ok b) :
    (∀ s er, (safeWriteFile e.swfEnv b 60 nsPerSecond).1 = SWFResult.ok s →
      e.loadDLL = Except.error er →
      loadStep tempDir e d =
          (some (LoadErr.loadFailed er),
           { d with fileName := targetPath tempDir b d.Name,
                    dllHandle := some s, wroteDll := true },
           [LoadEvent.buffer, LoadEvent.materialize, LoadEvent.moduleLoad]) ∧
        (∀ e2 : LoadEnv,
          (loadStep tempDir e2
            { d with fileName := targetPath tempDir b d.Name,
                     dllHandle := some s, wroteDll := true }).2.2
            = [LoadEvent.moduleLoad])) ∧
      (∀ er, (safeWriteFile e.swfEnv b 60 nsPerSecond).1 = SWFResult.error er →
        loadStep tempDir e d =
            (some (LoadErr.writeFailed er),
             { d with fileName := targetPath tempDir b d.Name, dllHandle := none },
             [LoadEvent.buffer, LoadEvent.materialize]) ∧
          (loadStep tempDir e d).2.1.wroteDll = false) := by
  constructor
  · intro s er hs hl
    constructor
    · simp [loadStep, hd, hw, hb, hs, loadModulePhase, hl]
    · intro e2
      rcases hl2 : e2.loadDLL with er2 | h2 <;>
        simp [loadStep, hd, loadModulePhase, hl2]
  · intro er hs
    constructor
    · simp [loadStep, hd, hw, hb, hs]
    · simp [loadStep, hd, hw, hb, hs]

/-- C5 (witness): part (i) at a concrete environment: buffering `[9]`,
materializing instantly (descriptor from iteration 0), then failing the
module load with error `7`. -/
theorem claim_C5_witness :
    loadStep "/tmp" loadEnvC5 dllFreshA =
        (some (LoadErr.loadFailed 7),
         { dllFreshA with fileName := targetPath "/tmp" [9] "a",
                          dllHandle := some ⟨0, [9], [9]⟩, wroteDll := true },
         [LoadEvent.buffer, LoadEvent.materialize, LoadEvent.moduleLoad]) :=
  ((( claim_C5_theorem "/tmp" loadEnvC5 dllFreshA [9] rfl rfl rfl).1
    ⟨0, [9], [9]⟩ 7 (by decide) rfl).1)

/-- C8: a `Find` call on an unresolved `LazyProc` first runs the library's
`Load` and (i) if that fails, returns the load error without ever invoking
symbol resolution; (ii) only on its success invokes `FindProc`, in that
order, caching the address; (iii) once resolved, later calls reuse the
cached address performing neither step. -/
theorem claim_C8_theorem :
    (∀ (tempDir : String) (e : FindEnv) (p : LazyProc) (d : LazyDLL)
       (er : LoadErr) (d2 : LazyDLL) (evs : List LoadEvent),
      p.proc = none →
      loadStep tempDir e.loadEnv d = (some er, d2, evs) →
      findStep tempDir e p d
        = (some (FindErr.loadErr er), p, d2, [FindEvent.loadAttempt])) ∧
    (∀ (tempDir : String) (e : FindEnv) (p : LazyProc) (d : LazyDLL)
       (d2 : LazyDLL) (evs : List LoadEvent) (a : Nat),
      p.proc = none →
      loadStep tempDir e.loadEnv d = (none, d2, evs) →
      e.findProc = Except.ok a →
      findStep tempDir e p d
        = (none, { p with proc := some a }, d2,
           [FindEvent.loadAttempt, FindEvent.resolveAttempt])) ∧
    (∀ (tempDir : String) (e : FindEnv) (p : LazyProc) (d : LazyDLL) (a : Nat),
      p.proc = some a →
      findStep tempDir e p d = (none, p, d, [])) := by
  refine ⟨?_, ?_, ?_⟩
  · intro tempDir e p d er d2 evs hp hl
    simp [findStep, hp, hl]
  · intro tempDir e p d d2 evs a hp hl hf
    simp [findStep, hp, hl, hf]
  · intro tempDir e p d a hp
    simp [findStep, hp]

/-- C8 (witness): (i) an unresolved proc whose library load fails with `7`
returns that error with no resolution attempt; (iii) an already-resolved
proc performs nothing. -/
theorem claim_C8_witness :
    findStep "/tmp" findEnvC8 procUnresolved dllWrote
        = (some (FindErr.loadErr (LoadErr.loadFailed 7)), procUnresolved,
           dllWrote, [FindEvent.loadAttempt]) ∧
      findStep "/tmp" findEnvC8 procResolved dllWrote
        = (none, procResolved, dllWrote, []) :=
  ⟨claim_C8_theorem.1 "/tmp" findEnvC8 procUnresolved dllWrote
      (LoadErr.loadFailed 7) dllWrote [LoadEvent.moduleLoad] rfl rfl,
   claim_C8_theorem.2.2 "/tmp" findEnvC8 procResolved dllWrote 5 rfl⟩
